import Mathlib

/-!
Verification of the conversation-session mapping and request/poll/response
layer of the Sihara-Prak-Bot repository.

The embedding translates the current implementation (the versioned
`getOrCreateThread` / `runAssistant` / webhook handler found in
`src/unnamed/part_000`); `src/index.js` is the older unversioned variant of
the same module, whose top-level statements are modelled separately for the
scoping claim about its module evaluation.

Conventions of the shallow embedding:
* the JavaScript object `threads` is an association list `Store`;
* the durable-state value under a key is `StoredThread`: either a
  legacy-format bare handle string or a record with optional `thread_id`
  and `prompt_version` fields (a missing field is `none`);
* calls to the upstream assistant service are oracles passed in as
  parameters (`freshId`, `AssistantEnv`), and the result records whether an
  upstream create happened and whether the store file was written;
* message text is `List Char`; `jsTrim`, `jsIncludes` and `replaceFirst`
  model `String.prototype.trim`, `String.prototype.includes` and
  single-occurrence `String.prototype.replace`.
-/

namespace Sihara

/-- Active prompt/instruction version: `PROMPT_VERSION` in the source. -/
def PROMPT_VERSION : String := "1.2"

/-- A value stored under a session key in the durable thread mapping:
either a legacy-format bare handle string, or the current record shape with
optional `thread_id` and `prompt_version` fields (a field absent from the
JSON object is `none`). -/
inductive StoredThread where
  | legacy (handle : String)
  | record (thread_id : Option String) (prompt_version : Option String)
deriving DecidableEq

/-- The in-memory `threads` object: a string-keyed mapping. -/
abbrev Store := List (String × StoredThread)

/-- Property lookup on the `threads` object. -/
def storeLookup (k : String) : Store → Option StoredThread
  | [] => none
  | (k', v) :: rest => if k' = k then some v else storeLookup k rest

/-- Keyed assignment `threads[key] = v` (replaces an existing entry). -/
def storeSet (k : String) (v : StoredThread) : Store → Store
  | [] => [(k, v)]
  | (k', v') :: rest => if k' = k then (k, v) :: rest else (k', v') :: storeSet k v rest

/-- JavaScript truthiness of the `thread_id` field: a missing field is
`undefined` (falsy) and the empty string is falsy. -/
def tidTruthy : Option String → Bool
  | some s => s != ""
  | none => false

/-- The cache-hit test of `getOrCreateThread`:
`existing && existing.thread_id && existing.prompt_version === PROMPT_VERSION`.
A legacy bare string has no `thread_id` property, so it never hits. -/
def recHit (pv : String) : StoredThread → Bool
  | .legacy _ => false
  | .record tid pvr => tidTruthy tid && pvr == some pv

/-- The `thread_id` read back from a stored value on a cache hit. -/
def threadIdOf : StoredThread → String
  | .legacy h => h
  | .record tid _ => tid.getD ""

/-- The `prompt_version` field of a stored value (`none` when absent,
in particular for a legacy bare handle string). -/
def recVersion : StoredThread → Option String
  | .legacy _ => none
  | .record _ pvr => pvr

/-- Result of one `getOrCreateThread` call: the returned handle, the
updated `threads` mapping, whether `openai.beta.threads.create()` was
called, and whether `saveThreads()` wrote the store file. -/
structure ResolveResult where
  handle : String
  threads : Store
  upstreamCall : Bool
  saved : Bool
deriving DecidableEq

/-- Shallow embedding of `getOrCreateThread` (versioned variant): return
the stored handle on a version-matching hit, otherwise create a fresh
upstream thread (`freshId` is the id the upstream service would issue),
store it with the current version and persist. -/
def getOrCreateThread (pv : String) (ts : Store) (key freshId : String) : ResolveResult :=
  match storeLookup key ts with
  | some existing =>
    if recHit pv existing then
      ⟨threadIdOf existing, ts, false, false⟩
    else
      ⟨freshId, storeSet key (.record (some freshId) (some pv)) ts, true, true⟩
  | none => ⟨freshId, storeSet key (.record (some freshId) (some pv)) ts, true, true⟩

/-- The key derivation of `getThreadKey`. -/
def getThreadKey (chatId userId : Int) : String :=
  toString chatId ++ ":" ++ toString userId

lemma storeLookup_storeSet (k : String) (v : StoredThread) (ts : Store) :
    storeLookup k (storeSet k v ts) = some v := by
  induction ts with
  | nil => simp [storeSet, storeLookup]
  | cons hd tl ih =>
    obtain ⟨k', v'⟩ := hd
    by_cases hk : k' = k
    · simp [storeSet, storeLookup, hk]
    · simp [storeSet, storeLookup, hk, ih]

lemma recHit_true_iff (pv : String) (v : StoredThread) :
    recHit pv v = true ↔ ∃ s, v = .record (some s) (some pv) ∧ s ≠ "" := by
  cases v with
  | legacy h => simp [recHit]
  | record tid pvr =>
    cases tid with
    | none => simp [recHit, tidTruthy]
    | some s =>
      constructor
      · intro h
        refine ⟨s, ?_, ?_⟩
        · simp only [recHit, tidTruthy, Bool.and_eq_true, beq_iff_eq] at h
          simp [h.2]
        · simp only [recHit, tidTruthy, Bool.and_eq_true, bne_iff_ne] at h
          exact h.1
      · rintro ⟨s', hs', hne⟩
        injection hs' with h1 h2
        injection h1 with h1
        subst h1 h2
        simp [recHit, tidTruthy, hne]

/-- Claim C1: `getOrCreateThread` returns a stored handle with no upstream
create only when the record under the key has a truthy `thread_id` and a
`prompt_version` equal to the active version; whenever it does call
upstream (miss, legacy record, or any non-matching version) it returns the
fresh handle and stores it under the key with the current version, so a
handle created under a different instruction version is never returned. -/
theorem getOrCreateThread_version_invariant (pv key fresh : String) (ts : Store) :
    ((getOrCreateThread pv ts key fresh).upstreamCall = false →
      ∃ tid, storeLookup key ts = some (.record (some tid) (some pv)) ∧ tid ≠ "" ∧
        (getOrCreateThread pv ts key fresh).handle = tid ∧
        (getOrCreateThread pv ts key fresh).threads = ts ∧
        (getOrCreateThread pv ts key fresh).saved = false)
    ∧ ((getOrCreateThread pv ts key fresh).upstreamCall = true →
      (getOrCreateThread pv ts key fresh).handle = fresh ∧
      (getOrCreateThread pv ts key fresh).saved = true ∧
      storeLookup key (getOrCreateThread pv ts key fresh).threads
        = some (.record (some fresh) (some pv)))
    ∧ (storeLookup key ts = none → (getOrCreateThread pv ts key fresh).upstreamCall = true)
    ∧ (∀ v, storeLookup key ts = some v → recVersion v ≠ some pv →
      (getOrCreateThread pv ts key fresh).upstreamCall = true) := by
  cases hl : storeLookup key ts with
  | none =>
    refine ⟨?_, ?_, ?_, ?_⟩
    · intro h
      simp [getOrCreateThread, hl] at h
    · intro _
      simp [getOrCreateThread, hl, storeLookup_storeSet]
    · intro _
      simp [getOrCreateThread, hl]
    · intro v hv
      simp at hv
  | some v =>
    by_cases hh : recHit pv v = true
    · obtain ⟨s, hv, hs⟩ := (recHit_true_iff pv v).mp hh
      subst hv
      refine ⟨?_, ?_, ?_, ?_⟩
      · intro _
        exact ⟨s, rfl, hs, by simp [getOrCreateThread, hl, hh, threadIdOf],
          by simp [getOrCreateThread, hl, hh], by simp [getOrCreateThread, hl, hh]⟩
      · intro h
        simp [getOrCreateThread, hl, hh] at h
      · intro h
        simp at h
      · intro w hw hver
        injection hw with hw
        subst hw
        exact absurd (rfl : recVersion (StoredThread.record (some s) (some pv)) = some pv) hver
    · refine ⟨?_, ?_, ?_, ?_⟩
      · intro h
        simp [getOrCreateThread, hl, hh] at h
      · intro _
        simp [getOrCreateThread, hl, hh, storeLookup_storeSet]
      · intro h
        simp at h
      · intro _ _ _
        simp [getOrCreateThread, hl, hh]

/-- Witness for C1 at a concrete input: an empty store misses and the
fresh handle is stored under the current version. -/
theorem getOrCreateThread_version_invariant_witness :
    (((getOrCreateThread PROMPT_VERSION [] "1:2" "t1").upstreamCall = false →
      ∃ tid, storeLookup "1:2" ([] : Store)
          = some (.record (some tid) (some PROMPT_VERSION)) ∧ tid ≠ "" ∧
        (getOrCreateThread PROMPT_VERSION [] "1:2" "t1").handle = tid ∧
        (getOrCreateThread PROMPT_VERSION [] "1:2" "t1").threads = ([] : Store) ∧
        (getOrCreateThread PROMPT_VERSION [] "1:2" "t1").saved = false)
    ∧ ((getOrCreateThread PROMPT_VERSION [] "1:2" "t1").upstreamCall = true →
      (getOrCreateThread PROMPT_VERSION [] "1:2" "t1").handle = "t1" ∧
      (getOrCreateThread PROMPT_VERSION [] "1:2" "t1").saved = true ∧
      storeLookup "1:2" (getOrCreateThread PROMPT_VERSION [] "1:2" "t1").threads
        = some (.record (some "t1") (some PROMPT_VERSION)))
    ∧ (storeLookup "1:2" ([] : Store) = none →
      (getOrCreateThread PROMPT_VERSION [] "1:2" "t1").upstreamCall = true)
    ∧ (∀ v, storeLookup "1:2" ([] : Store) = some v → recVersion v ≠ some PROMPT_VERSION →
      (getOrCreateThread PROMPT_VERSION [] "1:2" "t1").upstreamCall = true)) :=
  getOrCreateThread_version_invariant PROMPT_VERSION "1:2" "t1" []

/-- Claim C2: a legacy-format bare handle string stored under a key is
immediately stale: the next resolution for that key calls upstream,
returns the fresh handle (not the bare one), and replaces the record with
a versioned one, persisting the store. -/
theorem legacy_record_is_stale (pv key fresh h : String) (ts : Store)
    (hl : storeLookup key ts = some (.legacy h)) :
    (getOrCreateThread pv ts key fresh).upstreamCall = true ∧
    (getOrCreateThread pv ts key fresh).handle = fresh ∧
    (getOrCreateThread pv ts key fresh).saved = true ∧
    storeLookup key (getOrCreateThread pv ts key fresh).threads
      = some (.record (some fresh) (some pv)) := by
  have hh : recHit pv (.legacy h) = false := rfl
  refine ⟨?_, ?_, ?_, ?_⟩ <;>
    simp [getOrCreateThread, hl, hh, storeLookup_storeSet]

/-- Witness for C2: a store holding a bare handle string under the key. -/
theorem legacy_record_is_stale_witness :
    (getOrCreateThread PROMPT_VERSION [("1:2", .legacy "old")] "1:2" "t1").upstreamCall = true ∧
    (getOrCreateThread PROMPT_VERSION [("1:2", .legacy "old")] "1:2" "t1").handle = "t1" ∧
    (getOrCreateThread PROMPT_VERSION [("1:2", .legacy "old")] "1:2" "t1").saved = true ∧
    storeLookup "1:2" (getOrCreateThread PROMPT_VERSION [("1:2", .legacy "old")] "1:2" "t1").threads
      = some (.record (some "t1") (some PROMPT_VERSION)) :=
  legacy_record_is_stale PROMPT_VERSION "1:2" "t1" "old" [("1:2", .legacy "old")] rfl

/-- Claim C3: two successive resolutions of the same key with no version
change return the same handle, the second is a pure cache hit (no upstream
call, no store mutation, no write), and the store file is written at most
once across the two calls. -/
theorem resolve_twice_cache_hit (pv key f1 f2 : String) (ts : Store) (hf : f1 ≠ "") :
    (getOrCreateThread pv (getOrCreateThread pv ts key f1).threads key f2).handle
      = (getOrCreateThread pv ts key f1).handle ∧
    (getOrCreateThread pv (getOrCreateThread pv ts key f1).threads key f2).threads
      = (getOrCreateThread pv ts key f1).threads ∧
    (getOrCreateThread pv (getOrCreateThread pv ts key f1).threads key f2).upstreamCall = false ∧
    (getOrCreateThread pv (getOrCreateThread pv ts key f1).threads key f2).saved = false ∧
    ((if (getOrCreateThread pv ts key f1).saved = true then (1 : Nat) else 0) +
      (if (getOrCreateThread pv (getOrCreateThread pv ts key f1).threads key f2).saved = true
        then (1 : Nat) else 0)) ≤ 1 := by
  cases hl : storeLookup key ts with
  | none =>
    have hh2 : recHit pv (.record (some f1) (some pv)) = true := by
      simp [recHit, tidTruthy, bne_iff_ne, hf]
    refine ⟨?_, ?_, ?_, ?_, ?_⟩ <;>
      simp [getOrCreateThread, hl, storeLookup_storeSet, hh2, threadIdOf]
  | some v =>
    by_cases hh : recHit pv v = true
    · refine ⟨?_, ?_, ?_, ?_, ?_⟩ <;>
        simp [getOrCreateThread, hl, hh]
    · have hh2 : recHit pv (.record (some f1) (some pv)) = true := by
        simp [recHit, tidTruthy, bne_iff_ne, hf]
      refine ⟨?_, ?_, ?_, ?_, ?_⟩ <;>
        simp [getOrCreateThread, hl, hh, storeLookup_storeSet, hh2, threadIdOf]

/-- Witness for C3 at a concrete input: starting from the empty store,
the first call creates and writes once, the second is a pure hit. -/
theorem resolve_twice_cache_hit_witness :
    (getOrCreateThread PROMPT_VERSION
        (getOrCreateThread PROMPT_VERSION [] "1:2" "t1").threads "1:2" "t2").handle
      = (getOrCreateThread PROMPT_VERSION [] "1:2" "t1").handle ∧
    (getOrCreateThread PROMPT_VERSION
        (getOrCreateThread PROMPT_VERSION [] "1:2" "t1").threads "1:2" "t2").threads
      = (getOrCreateThread PROMPT_VERSION [] "1:2" "t1").threads ∧
    (getOrCreateThread PROMPT_VERSION
        (getOrCreateThread PROMPT_VERSION [] "1:2" "t1").threads "1:2" "t2").upstreamCall
      = false ∧
    (getOrCreateThread PROMPT_VERSION
        (getOrCreateThread PROMPT_VERSION [] "1:2" "t1").threads "1:2" "t2").saved = false ∧
    ((if (getOrCreateThread PROMPT_VERSION [] "1:2" "t1").saved = true then (1 : Nat) else 0) +
      (if (getOrCreateThread PROMPT_VERSION
          (getOrCreateThread PROMPT_VERSION [] "1:2" "t1").threads "1:2" "t2").saved = true
        then (1 : Nat) else 0)) ≤ 1 :=
  resolve_twice_cache_hit PROMPT_VERSION "1:2" "t1" "t2" [] (by decide)

/-! Text primitives used by the webhook handler. -/

/-- Embedding of `String.prototype.trim`: drop whitespace from both ends. -/
def jsTrim (l : List Char) : List Char :=
  ((l.dropWhile Char.isWhitespace).reverse.dropWhile Char.isWhitespace).reverse

/-- Embedding of `String.prototype.includes`: substring containment. -/
def jsIncludes (needle hay : List Char) : Bool :=
  decide (needle <:+: hay)

/-- Embedding of `text.replace(needle, "")`: remove the first (leftmost)
occurrence of `needle`; when `needle` does not occur, leave the text
unchanged. -/
def replaceFirst (needle : List Char) : List Char → List Char
  | [] => []
  | c :: rest =>
    if needle.isPrefixOf (c :: rest) then (c :: rest).drop needle.length
    else c :: replaceFirst needle rest

lemma revInfixIff (a b : List Char) : a.reverse <:+: b.reverse ↔ a <:+: b :=
  List.reverse_infix

lemma revPrefixIff (a b : List Char) : a.reverse <+: b.reverse ↔ a <:+ b :=
  List.reverse_prefix

/-- Trimming only removes characters from the ends. -/
lemma jsTrim_infixOf_self (l : List Char) : jsTrim l <:+: l := by
  have h1 : (l.dropWhile Char.isWhitespace).reverse.dropWhile Char.isWhitespace
      <:+ (l.dropWhile Char.isWhitespace).reverse := List.dropWhile_suffix _
  have h2 : jsTrim l <+: l.dropWhile Char.isWhitespace := by
    have := (revPrefixIff
      ((l.dropWhile Char.isWhitespace).reverse.dropWhile Char.isWhitespace)
      (l.dropWhile Char.isWhitespace).reverse).mpr h1
    simpa [jsTrim] using this
  exact h2.isInfix.trans (List.dropWhile_suffix _).isInfix

/-- Dropping a leading run of `p`-characters does not change whether a
nonempty `p`-free pattern occurs as a substring. -/
lemma infixOfDropWhile (p : Char → Bool) (mn l : List Char) (hm : mn ≠ [])
    (hf : ∀ c ∈ mn, p c = false) : mn <:+: l.dropWhile p ↔ mn <:+: l := by
  induction l with
  | nil => simp
  | cons c l ih =>
    by_cases hc : p c = true
    · rw [List.dropWhile_cons_of_pos hc, ih]
      constructor
      · intro h
        exact h.trans (List.infix_cons (List.infix_refl l))
      · rintro ⟨a, b, hab⟩
        cases a with
        | nil =>
          obtain ⟨m0, mrest, hm0⟩ :
              ∃ m0 mrest, mn = m0 :: mrest := by
            cases mn with
            | nil => exact absurd rfl hm
            | cons x xs => exact ⟨x, xs, rfl⟩
          subst hm0
          simp only [List.nil_append, List.cons_append, List.cons.injEq] at hab
          have : p c = false := hab.1 ▸ hf m0 (List.mem_cons_self m0 mrest)
          rw [this] at hc
          cases hc
        | cons a0 arest =>
          simp only [List.cons_append, List.cons.injEq] at hab
          exact ⟨arest, b, hab.2⟩
    · rw [List.dropWhile_cons_of_neg hc]

/-- Trimming does not change whether a nonempty whitespace-free pattern
occurs as a substring. -/
lemma infixOfJsTrim (mn l : List Char) (hm : mn ≠ [])
    (hf : ∀ c ∈ mn, Char.isWhitespace c = false) : mn <:+: jsTrim l ↔ mn <:+: l := by
  have hmr : mn.reverse ≠ [] := by simpa using hm
  have hfr : ∀ c ∈ mn.reverse, Char.isWhitespace c = false := by
    intro c hc
    exact hf c (List.mem_reverse.mp hc)
  calc mn <:+: jsTrim l
      ↔ mn.reverse <:+: (l.dropWhile Char.isWhitespace).reverse.dropWhile Char.isWhitespace := by
        rw [jsTrim]
        constructor
        · intro h
          have := (revInfixIff mn
            ((l.dropWhile Char.isWhitespace).reverse.dropWhile Char.isWhitespace).reverse).mpr h
          simpa using this
        · intro h
          have := (revInfixIff mn
            ((l.dropWhile Char.isWhitespace).reverse.dropWhile Char.isWhitespace).reverse).mp
          apply this
          simpa using h
    _ ↔ mn.reverse <:+: (l.dropWhile Char.isWhitespace).reverse :=
        infixOfDropWhile _ _ _ hmr hfr
    _ ↔ mn <:+: l.dropWhile Char.isWhitespace := revInfixIff mn (l.dropWhile Char.isWhitespace)
    _ ↔ mn <:+: l := infixOfDropWhile _ _ _ hm hf

lemma jsIncludes_jsTrim (mn l : List Char) (hm : mn ≠ [])
    (hf : ∀ c ∈ mn, Char.isWhitespace c = false) :
    jsIncludes mn (jsTrim l) = jsIncludes mn l := by
  simp only [jsIncludes]
  exact decide_eq_decide.mpr (infixOfJsTrim mn l hm hf)

lemma jsIncludes_false_of_false (mn l : List Char) (h : jsIncludes mn l = false) :
    jsIncludes mn (jsTrim l) = false := by
  simp only [jsIncludes, decide_eq_false_iff_not] at h ⊢
  intro hc
  exact h (hc.trans (jsTrim_infixOf_self l))

/-! Inbound message gate: the webhook handler's classification and text
normalization, up to the dispatch into `runAssistant`. -/

/-- Relevant fields of the inbound Telegram update's `message` object.
A `none` text models a non-text update. -/
structure InboundMessage where
  text : Option (List Char)
  chatId : Int
  chatType : String
  fromId : Option Int
deriving DecidableEq

/-- Outcome of the webhook handler before any upstream interaction:
either a silent skip or a dispatch into the assistant driver with the
normalized text. -/
inductive GateOutcome where
  | skip
  | dispatch (chatId : Int) (fromId : Option Int) (text : List Char)
deriving DecidableEq

/-- Embedding of the webhook handler body: ignore non-text updates, trim,
require the mention token in non-private chats (skipping silently
otherwise), strip the first occurrence of the mention and re-trim in
non-private chats, then dispatch. -/
def handleUpdate (botUsername : List Char) (body : Option InboundMessage) : GateOutcome :=
  match body with
  | none => .skip
  | some m =>
    match m.text with
    | none => .skip
    | some t =>
      if t.isEmpty then .skip
      else
        let text := jsTrim t
        let isPrivate : Bool := m.chatType == "private"
        let mention : List Char := '@' :: botUsername
        if !isPrivate && !(jsIncludes mention text) then .skip
        else if isPrivate then .dispatch m.chatId m.fromId text
        else .dispatch m.chatId m.fromId (jsTrim (replaceFirst mention text))

lemma handleUpdate_private_eval (bot : List Char) (m : InboundMessage) (t : List Char)
    (hp : m.chatType = "private") (ht : m.text = some t) (hne : t ≠ []) :
    handleUpdate bot (some m) = .dispatch m.chatId m.fromId (jsTrim t) := by
  simp [handleUpdate, ht, hp, hne]

lemma handleUpdate_group_eval (bot : List Char) (m : InboundMessage) (t : List Char)
    (hg : m.chatType ≠ "private") (ht : m.text = some t) (hne : t ≠ []) :
    handleUpdate bot (some m) =
      if jsIncludes ('@' :: bot) (jsTrim t) = true then
        .dispatch m.chatId m.fromId (jsTrim (replaceFirst ('@' :: bot) (jsTrim t)))
      else .skip := by
  cases hb : jsIncludes ('@' :: bot) (jsTrim t) <;>
    simp [handleUpdate, ht, hg, hne, hb]

/-- Every character of the mention token `"@" + botUsername` is
non-whitespace whenever the username itself is whitespace-free. -/
lemma mention_no_whitespace (bot : List Char) (hw : ∀ c ∈ bot, c.isWhitespace = false) :
    ∀ c ∈ ('@' :: bot), c.isWhitespace = false := by
  intro c hc
  rcases List.mem_cons.mp hc with h | h
  · subst h; decide
  · exact hw c h

/-- Claim C5 fails on the code: in a private chat the forwarded text is
the trimmed message text, not the original; the input whose text is
`" hello "` is forwarded as `"hello"`. -/
theorem private_passthrough_counterexample :
    handleUpdate "SiharaPrakBot".toList
        (some ⟨some " hello ".toList, 1, "private", some 2⟩)
      = .dispatch 1 (some 2) "hello".toList ∧
    handleUpdate "SiharaPrakBot".toList
        (some ⟨some " hello ".toList, 1, "private", some 2⟩)
      ≠ .dispatch 1 (some 2) " hello ".toList := by
  constructor <;> decide

/-- Claim C5 as amended: in a private chat the text forwarded to the
assistant is the original message text with leading and trailing
whitespace trimmed; no mention stripping or any other change is applied. -/
theorem private_text_trimmed (bot : List Char) (m : InboundMessage) (t : List Char)
    (hp : m.chatType = "private") (ht : m.text = some t) (hne : t ≠ []) :
    handleUpdate bot (some m) = .dispatch m.chatId m.fromId (jsTrim t) :=
  handleUpdate_private_eval bot m t hp ht hne

/-- Witness for the amended C5 at a concrete private update. -/
theorem private_text_trimmed_witness :
    handleUpdate "SiharaPrakBot".toList
        (some ⟨some " hi there ".toList, 3, "private", none⟩)
      = .dispatch 3 none (jsTrim " hi there ".toList) :=
  private_text_trimmed "SiharaPrakBot".toList
    ⟨some " hi there ".toList, 3, "private", none⟩ " hi there ".toList
    rfl rfl (by decide)

/-- Claim C6: in a non-private chat an update whose text lacks the mention
token is skipped silently; when the token is present it is stripped (first
occurrence removed and the result trimmed) before forwarding, and in
particular the group text `"@BotName hello"` is forwarded as exactly
`"hello"`. -/
theorem group_mention_gate (bot : List Char) (m : InboundMessage) (t : List Char)
    (hw : ∀ c ∈ bot, c.isWhitespace = false)
    (hg : m.chatType ≠ "private") (ht : m.text = some t) (hne : t ≠ []) :
    (jsIncludes ('@' :: bot) t = false → handleUpdate bot (some m) = .skip)
    ∧ (jsIncludes ('@' :: bot) t = true →
        handleUpdate bot (some m)
          = .dispatch m.chatId m.fromId (jsTrim (replaceFirst ('@' :: bot) (jsTrim t))))
    ∧ handleUpdate "BotName".toList
        (some ⟨some "@BotName hello".toList, 5, "group", some 7⟩)
      = .dispatch 5 (some 7) "hello".toList := by
  have heval := handleUpdate_group_eval bot m t hg ht hne
  have htrim : jsIncludes ('@' :: bot) (jsTrim t) = jsIncludes ('@' :: bot) t :=
    jsIncludes_jsTrim ('@' :: bot) t (by simp) (mention_no_whitespace bot hw)
  refine ⟨?_, ?_, by decide⟩
  · intro h
    rw [heval, htrim, h]
    simp
  · intro h
    rw [heval, htrim, h]
    simp

/-- Witness for C6: a group update containing the mention token mid-text. -/
theorem group_mention_gate_witness :
    (jsIncludes ('@' :: "BotName".toList) "no mention here".toList = false →
      handleUpdate "BotName".toList
          (some ⟨some "no mention here".toList, 5, "group", some 7⟩) = .skip)
    ∧ (jsIncludes ('@' :: "BotName".toList) "no mention here".toList = true →
        handleUpdate "BotName".toList
            (some ⟨some "no mention here".toList, 5, "group", some 7⟩)
          = .dispatch 5 (some 7)
              (jsTrim (replaceFirst ('@' :: "BotName".toList)
                (jsTrim "no mention here".toList))))
    ∧ handleUpdate "BotName".toList
        (some ⟨some "@BotName hello".toList, 5, "group", some 7⟩)
      = .dispatch 5 (some 7) "hello".toList :=
  group_mention_gate "BotName".toList
    ⟨some "no mention here".toList, 5, "group", some 7⟩ "no mention here".toList
    (by decide) (by decide) rfl (by decide)

/-- Claim C10: in a non-private chat the update is dispatched exactly when
the string `"@" + BOT_USERNAME` occurs anywhere in the text (plain
substring containment, so also inside a longer token such as
`"@BotNameX"`), and only the first occurrence of the token is removed from
the forwarded text when it occurs more than once. -/
theorem mention_detection_substring (bot : List Char) (m : InboundMessage) (t : List Char)
    (hw : ∀ c ∈ bot, c.isWhitespace = false)
    (hg : m.chatType ≠ "private") (ht : m.text = some t) (hne : t ≠ []) :
    ((∃ txt, handleUpdate bot (some m) = .dispatch m.chatId m.fromId txt)
      ↔ jsIncludes ('@' :: bot) t = true)
    ∧ handleUpdate "BotName".toList
        (some ⟨some "@BotNameX ping".toList, 1, "group", some 2⟩)
      = .dispatch 1 (some 2) "X ping".toList
    ∧ handleUpdate "BotName".toList
        (some ⟨some "@BotName hi @BotName".toList, 1, "group", some 2⟩)
      = .dispatch 1 (some 2) "hi @BotName".toList := by
  have heval := handleUpdate_group_eval bot m t hg ht hne
  have htrim : jsIncludes ('@' :: bot) (jsTrim t) = jsIncludes ('@' :: bot) t :=
    jsIncludes_jsTrim ('@' :: bot) t (by simp) (mention_no_whitespace bot hw)
  refine ⟨?_, by decide, by decide⟩
  constructor
  · rintro ⟨txt, hd⟩
    by_contra hni
    have hfalse : jsIncludes ('@' :: bot) t = false := by
      cases hq : jsIncludes ('@' :: bot) t
      · rfl
      · exact absurd hq hni
    rw [heval, htrim, hfalse] at hd
    simp at hd
  · intro h
    refine ⟨jsTrim (replaceFirst ('@' :: bot) (jsTrim t)), ?_⟩
    rw [heval, htrim, h]
    simp

/-- Witness for C10: a group update where the mention occurs inside a
longer token. -/
theorem mention_detection_substring_witness :
    ((∃ txt, handleUpdate "BotName".toList
        (some ⟨some "@BotNameX ping".toList, 9, "group", none⟩)
      = .dispatch 9 none txt)
      ↔ jsIncludes ('@' :: "BotName".toList) "@BotNameX ping".toList = true)
    ∧ handleUpdate "BotName".toList
        (some ⟨some "@BotNameX ping".toList, 1, "group", some 2⟩)
      = .dispatch 1 (some 2) "X ping".toList
    ∧ handleUpdate "BotName".toList
        (some ⟨some "@BotName hi @BotName".toList, 1, "group", some 2⟩)
      = .dispatch 1 (some 2) "hi @BotName".toList :=
  mention_detection_substring "BotName".toList
    ⟨some "@BotNameX ping".toList, 9, "group", none⟩ "@BotNameX ping".toList
    (by decide) (by decide) rfl (by decide)

/-! Assistant conversation driver: `runAssistant`. -/

/-- The `text` object of one content part of an upstream thread message;
its `value` field may be absent. -/
structure TextContent where
  value : Option String
deriving DecidableEq

/-- One element of a thread message's `content` array; its `text` field
may be absent. -/
structure ContentPart where
  text : Option TextContent
deriving DecidableEq

/-- One message of an upstream thread: an authoring role and a content
array. -/
structure ThreadMessage where
  role : String
  content : List ContentPart
deriving DecidableEq

/-- Per-thread message histories kept by the upstream service, oldest
first. -/
abbrev Histories := List (String × List ThreadMessage)

/-- Messages currently recorded for a thread (empty when unknown). -/
def histGet (tid : String) : Histories → List ThreadMessage
  | [] => []
  | (tid', ms) :: rest => if tid' = tid then ms else histGet tid rest

/-- Replace the recorded messages of a thread. -/
def histSet (tid : String) (ms : List ThreadMessage) : Histories → Histories
  | [] => [(tid, ms)]
  | (tid', ms') :: rest =>
    if tid' = tid then (tid, ms) :: rest else (tid', ms') :: histSet tid ms rest

/-- Append messages at the end of a thread's history. -/
def histAppend (tid : String) (ms : List ThreadMessage) (h : Histories) : Histories :=
  histSet tid (histGet tid h ++ ms) h

/-- Oracle describing the upstream assistant service's behavior for one
`runAssistant` call: the thread id a create would return, the terminal
status reached by `createAndPoll`, and the messages the run adds to the
thread. -/
structure AssistantEnv where
  freshThreadId : String
  runStatus : String
  runOutput : List ThreadMessage
deriving DecidableEq

/-- Process state touched by `runAssistant`: the `threads` mapping and the
upstream per-thread message histories. -/
structure BotState where
  threads : Store
  histories : Histories
deriving DecidableEq

/-- The user turn appended by `openai.beta.threads.messages.create`. -/
def userTurn (userText : String) : ThreadMessage :=
  ⟨"user", [⟨some ⟨some userText⟩⟩]⟩

/-- Embedding of `assistantMessage?.content?.[0]?.text?.value ||
"No response."`: optional chaining falls through to the fallback, and so
does an empty (falsy) string. -/
def jsTextExtract (m : ThreadMessage) : String :=
  match m.content.head? with
  | none => "No response."
  | some part =>
    match part.text with
    | none => "No response."
    | some tc =>
      match tc.value with
      | none => "No response."
      | some v => if v = "" then "No response." else v

/-- Whether a message carries a text payload reachable by the extraction
chain (a first content part with a `text.value` field present). -/
def hasTextPayload (m : ThreadMessage) : Bool :=
  match m.content.head? with
  | none => false
  | some part =>
    match part.text with
    | none => false
    | some tc => tc.value.isSome

/-- The window fetched by `messages.list(threadId, limit 5)`: the last
five messages of the thread, most recent first. -/
def listRecentWindow (msgs : List ThreadMessage) : List ThreadMessage :=
  msgs.reverse.take 5

/-- The thread id `runAssistant` resolves for a (chat, user) pair. -/
def resolvedThreadId (pv : String) (env : AssistantEnv) (st : BotState)
    (chatId userId : Int) : String :=
  (getOrCreateThread pv st.threads (getThreadKey chatId userId) env.freshThreadId).handle

/-- The thread history after the user turn was appended and a completed
run added its output messages. -/
def postRunHistories (pv : String) (env : AssistantEnv) (st : BotState)
    (chatId userId : Int) (userText : String) : Histories :=
  histAppend (resolvedThreadId pv env st chatId userId) env.runOutput
    (histAppend (resolvedThreadId pv env st chatId userId) [userTurn userText] st.histories)

/-- The recent-turns window `runAssistant` inspects after a completed
run. -/
def fetchedWindow (pv : String) (env : AssistantEnv) (st : BotState)
    (chatId userId : Int) (userText : String) : List ThreadMessage :=
  listRecentWindow (histGet (resolvedThreadId pv env st chatId userId)
    (postRunHistories pv env st chatId userId userText))

/-- Embedding of `runAssistant`: resolve the thread, append the user turn,
poll the run to its terminal status, throw on a non-completed status,
otherwise extract the first assistant-authored message of the recent
window (falling back to the fixed string). Returns the thrown error or
the reply, together with the final state. -/
def runAssistant (pv : String) (env : AssistantEnv) (st : BotState)
    (chatId userId : Int) (userText : String) : Except String String × BotState :=
  let r := getOrCreateThread pv st.threads (getThreadKey chatId userId) env.freshThreadId
  let hist1 := histAppend r.handle [userTurn userText] st.histories
  if env.runStatus ≠ "completed" then
    (.error ("Assistant run failed: " ++ env.runStatus), ⟨r.threads, hist1⟩)
  else
    let hist2 := histAppend r.handle env.runOutput hist1
    let window := listRecentWindow (histGet r.handle hist2)
    let reply :=
      match window.find? (fun m => m.role == "assistant") with
      | none => "No response."
      | some am => jsTextExtract am
    (.ok reply, ⟨r.threads, hist2⟩)

lemma histGet_histSet (tid : String) (ms : List ThreadMessage) (h : Histories) :
    histGet tid (histSet tid ms h) = ms := by
  induction h with
  | nil => simp [histSet, histGet]
  | cons hd tl ih =>
    obtain ⟨tid', ms'⟩ := hd
    by_cases hk : tid' = tid
    · simp [histSet, histGet, hk]
    · simp [histSet, histGet, hk, ih]

lemma histGet_histAppend (tid : String) (ms : List ThreadMessage) (h : Histories) :
    histGet tid (histAppend tid ms h) = histGet tid h ++ ms := by
  simp [histAppend, histGet_histSet]

lemma jsTextExtract_of_no_payload (m : ThreadMessage) (h : hasTextPayload m = false) :
    jsTextExtract m = "No response." := by
  cases hc : m.content.head? with
  | none => simp [jsTextExtract, hc]
  | some part =>
    cases hp : part.text with
    | none => simp [jsTextExtract, hc, hp]
    | some tc =>
      cases hv : tc.value with
      | none => simp [jsTextExtract, hc, hp, hv]
      | some v =>
        exfalso
        simp [hasTextPayload, hc, hp, hv] at h

/-- Claim C4: when the run reaches a terminal status other than
`"completed"`, `runAssistant` fails with the error carrying that status,
produces no reply, and the user turn appended before the run remains
recorded in the resolved thread's history. -/
theorem runAssistant_failure (pv : String) (env : AssistantEnv) (st : BotState)
    (chatId userId : Int) (userText : String)
    (hs : env.runStatus ≠ "completed") :
    (runAssistant pv env st chatId userId userText).1
      = .error ("Assistant run failed: " ++ env.runStatus)
    ∧ userTurn userText ∈ histGet (resolvedThreadId pv env st chatId userId)
        (runAssistant pv env st chatId userId userText).2.histories := by
  constructor
  · simp [runAssistant, hs]
  · have hst : (runAssistant pv env st chatId userId userText).2.histories
        = histAppend (resolvedThreadId pv env st chatId userId) [userTurn userText]
            st.histories := by
      simp [runAssistant, hs, resolvedThreadId]
    rw [hst, histGet_histAppend]
    simp

/-- Witness for C4: a run ending in the `"failed"` terminal status. -/
theorem runAssistant_failure_witness :
    (runAssistant PROMPT_VERSION ⟨"t1", "failed", []⟩ ⟨[], []⟩ 1 2 "hi").1
      = .error ("Assistant run failed: " ++ "failed")
    ∧ userTurn "hi" ∈ histGet (resolvedThreadId PROMPT_VERSION ⟨"t1", "failed", []⟩ ⟨[], []⟩ 1 2)
        (runAssistant PROMPT_VERSION ⟨"t1", "failed", []⟩ ⟨[], []⟩ 1 2 "hi").2.histories :=
  runAssistant_failure PROMPT_VERSION ⟨"t1", "failed", []⟩ ⟨[], []⟩ 1 2 "hi" (by decide)

/-- Claim C8: after a completed run, when the fetched window holds no
assistant-authored message, or its first assistant-authored message
carries no text payload, `runAssistant` returns the fixed fallback string
instead of failing. -/
theorem runAssistant_fallback (pv : String) (env : AssistantEnv) (st : BotState)
    (chatId userId : Int) (userText : String)
    (hc : env.runStatus = "completed")
    (hno : ∀ am, (fetchedWindow pv env st chatId userId userText).find?
        (fun m => m.role == "assistant") = some am → hasTextPayload am = false) :
    (runAssistant pv env st chatId userId userText).1 = .ok "No response." := by
  have hwin : (runAssistant pv env st chatId userId userText)
      = (.ok (match (fetchedWindow pv env st chatId userId userText).find?
            (fun m => m.role == "assistant") with
          | none => "No response."
          | some am => jsTextExtract am),
        ⟨(getOrCreateThread pv st.threads (getThreadKey chatId userId) env.freshThreadId).threads,
          postRunHistories pv env st chatId userId userText⟩) := by
    simp [runAssistant, hc, fetchedWindow, postRunHistories, resolvedThreadId]
  rw [hwin]
  cases hf : (fetchedWindow pv env st chatId userId userText).find?
      (fun m => m.role == "assistant") with
  | none => simp [hf]
  | some am =>
    simp only [hf]
    rw [jsTextExtract_of_no_payload am (hno am hf)]

/-- Witness for C8: a completed run that adds no assistant message, so
the window holds only the user turn. -/
theorem runAssistant_fallback_witness :
    (runAssistant PROMPT_VERSION ⟨"t1", "completed", []⟩ ⟨[], []⟩ 1 2 "hi").1
      = .ok "No response." :=
  runAssistant_fallback PROMPT_VERSION ⟨"t1", "completed", []⟩ ⟨[], []⟩ 1 2 "hi" rfl
    (by
      intro am ham
      have hnone : (fetchedWindow PROMPT_VERSION ⟨"t1", "completed", []⟩ ⟨[], []⟩ 1 2 "hi").find?
          (fun m => m.role == "assistant") = none := by decide
      rw [hnone] at ham
      exact Option.noConfusion ham)

/-! Session store loading at process start. -/

/-- Embedding of the startup load of the durable state file: `stateFile`
is `none` when the file is missing and `some content` otherwise, and
`parseContent` models `JSON.parse`, returning `none` exactly when parsing
throws. The surrounding `try`/`catch` makes both failure modes yield the
empty mapping, surfacing no error. -/
def loadThreads (stateFile : Option String) (parseContent : String → Option Store) : Store :=
  match stateFile with
  | none => []
  | some content =>
    match parseContent content with
    | none => []
    | some ts => ts

/-- Claim C7: loading returns the empty mapping when the state file is
missing, and also returns the empty mapping (raising nothing) when the
file content is malformed. -/
theorem loadThreads_recovery (parseContent : String → Option Store) (content : String)
    (hbad : parseContent content = none) :
    loadThreads none parseContent = [] ∧ loadThreads (some content) parseContent = [] := by
  constructor
  · rfl
  · simp [loadThreads, hbad]

/-- Witness for C7: a parser rejecting the concrete content. -/
theorem loadThreads_recovery_witness :
    loadThreads none (fun _ => none) = [] ∧ loadThreads (some "oops") (fun _ => none) = [] :=
  loadThreads_recovery (fun _ => none) "oops" rfl

/-! Module evaluation of `src/index.js`: scoping of top-level statements. -/

/-- One top-level statement of the module: the line it starts on, the free
variables it reads during module evaluation, and the module-scope names it
binds. Identifiers only referenced inside function bodies are resolved at
call time, not at module evaluation, so they are not listed. -/
structure TopLevelStmt where
  line : Nat
  reads : List String
  binds : List String

/-- Evaluate top-level statements in order: the first statement reading a
name that is neither a global nor bound earlier raises a ReferenceError,
reported as `some (line, name)`; `none` means evaluation runs to the end. -/
def evalTopLevel (scope : List String) : List TopLevelStmt → Option (Nat × String)
  | [] => none
  | s :: rest =>
    match s.reads.find? (fun r => !scope.contains r) with
    | some r => some (s.line, r)
    | none => evalTopLevel (scope ++ s.binds) rest

/-- Host globals visible to the module. -/
def jsGlobals : List String :=
  ["process", "console", "JSON", "fetch", "setInterval"]

/-- Names hoisted over the whole module scope of `src/index.js`: imported
bindings and function declarations. -/
def indexJsHoisted : List String :=
  ["express", "TelegramBot", "OpenAI", "axios", "fs",
   "saveThreads", "getThreadKey", "getOrCreateThread", "runAssistant"]

/-- The top-level statements of `src/index.js` in source order, with the
names each reads during module evaluation and the bindings each adds. -/
def indexJsTopLevel : List TopLevelStmt :=
  [⟨10, ["process"], ["TELEGRAM_TOKEN", "OPENAI_API_KEY", "ASSISTANT_ID",
      "BOT_SECRET", "BOT_USERNAME", "PORT", "RENDER_EXTERNAL_URL"]⟩,
   ⟨21, ["TELEGRAM_TOKEN", "OPENAI_API_KEY", "ASSISTANT_ID", "BOT_SECRET",
      "RENDER_EXTERNAL_URL", "console", "process"], []⟩,
   ⟨33, ["express"], ["app"]⟩,
   ⟨34, ["app", "express"], []⟩,
   ⟨37, ["TelegramBot", "TELEGRAM_TOKEN"], ["bot"]⟩,
   ⟨40, ["OpenAI", "OPENAI_API_KEY"], ["openai"]⟩,
   ⟨43, [], ["THREADS_FILE"]⟩,
   ⟨46, [], ["threads"]⟩,
   ⟨47, ["fs", "THREADS_FILE", "JSON", "threads"], []⟩,
   ⟨75, ["console", "text"], []⟩,
   ⟨100, ["RENDER_EXTERNAL_URL", "BOT_SECRET"], ["WEBHOOK_URL"]⟩,
   ⟨103, ["fetch", "TELEGRAM_TOKEN", "JSON", "WEBHOOK_URL"], []⟩,
   ⟨109, ["app"], []⟩,
   ⟨115, ["app", "BOT_SECRET"], []⟩,
   ⟨149, ["app"], []⟩,
   ⟨154, ["app", "PORT"], []⟩,
   ⟨159, ["setInterval"], []⟩]

/-- Claim C9 fails on the code: module evaluation of `src/index.js` raises
a ReferenceError at the top-level statement on line 75, which reads the
nowhere-bound name `text`, so evaluation never reaches the `app.listen`
statement on line 154. -/
theorem indexJs_toplevel_reference_error :
    evalTopLevel (jsGlobals ++ indexJsHoisted) indexJsTopLevel = some (75, "text") := by
  decide

end Sihara
